import Mathlib

/-!
Verification of `chitchat/src/transport/utils.rs`: the fault-injection
transport decorators (`TransportWithDelay` / `SocketWithDelay` and
`TransportWithMessageDrop` / `SocketWithMessageDrop`) together with the
`TransportExt` composition facility.

Modelling conventions:
* `SocketAddr`, `ChitchatMessage` and `TransportError` are opaque external
  types; they are modelled as `ℕ` (the decorators never inspect them).
* `Result<T, TransportError>` becomes `Except TransportError T`.
* A Rust panic (`unwrap`, `Duration::from_secs_f32` out of range) becomes
  `Option.none` at the call that panics.
* `SmallRng` is modelled as an abstract stream of u64 draws plus a cursor;
  `f64`/`f32` values are modelled as `ℚ`.
* The underlying `Box<dyn Socket>` / `Box<dyn Transport>` are modelled by an
  arbitrary state type `σ` together with transition functions
  (`SocketModel`, `FullTransport`); theorems quantify over them, so facts
  such as "the underlying socket is not invoked" hold for every possible
  underlying implementation.
* `tokio::task::spawn` of a deferred delivery is modelled on the caller's
  side by appending the task's payload to a `pending` list; the body of the
  spawned task is the function `deferredDeliver`, and the interleaving of
  deferred tasks, `recv`, and the `tokio::sync::RwLock` guarding the shared
  socket is modelled by the small-step system `DStep`.
-/

/-- Opaque model of `std::net::SocketAddr`. -/
abbrev SocketAddr := ℕ

/-- Opaque model of `crate::ChitchatMessage`. -/
abbrev ChitchatMessage := ℕ

/-- Opaque model of `crate::transport::TransportError`. -/
abbrev TransportError := ℕ

/-- Model of `rand::rngs::SmallRng`: an abstract entropy stream of u64
draws together with a position.  `SmallRng::from_rng(thread_rng()).unwrap()`
is modelled by starting a fresh stream at position 0. -/
structure SmallRng where
  stream : ℕ → ℕ
  pos : ℕ

/-- Drawing one u64 from the generator (`rng.gen::<u64>()`). -/
def SmallRng.next (r : SmallRng) : ℕ × SmallRng :=
  (r.stream r.pos % 2 ^ 64, ⟨r.stream, r.pos + 1⟩)

/-- The `SCALE` constant of `rand::distributions::Bernoulli`: `2^64`. -/
def BERNOULLI_SCALE : ℚ := 18446744073709551616

/-- The `ALWAYS_TRUE` sentinel of `rand::distributions::Bernoulli`:
`u64::MAX`. -/
def ALWAYS_TRUE : ℕ := 2 ^ 64 - 1

/-- Model of `rand::distributions::Bernoulli`: the stored integer
threshold `p_int`. -/
structure Bernoulli where
  pInt : ℕ
deriving DecidableEq

/-- Model of `Bernoulli::new(p)`: accepts exactly `p ∈ [0, 1]`.  For
`p ∈ [0, 1)` it stores `⌊p · 2^64⌋`; for `p = 1` it stores the
`ALWAYS_TRUE` sentinel; otherwise it returns an error (modelled `none`). -/
def Bernoulli.new (p : ℚ) : Option Bernoulli :=
  if 0 ≤ p ∧ p < 1 then some ⟨(p * BERNOULLI_SCALE).floor.toNat⟩
  else if p = 1 then some ⟨ALWAYS_TRUE⟩
  else none

/-- Model of `Bernoulli::sample`: with the `ALWAYS_TRUE` sentinel the
result is `true` without consuming the generator; otherwise one u64 `v` is
drawn and the result is `v < p_int`. -/
def Bernoulli.sample (b : Bernoulli) (rng : SmallRng) : Bool × SmallRng :=
  if b.pInt = ALWAYS_TRUE then (true, rng)
  else
    let (v, rng') := rng.next
    (decide (v < b.pInt), rng')

/-- Behaviour of an arbitrary underlying `Box<dyn Socket>` with state type
`σ`: `send` and `recv` return the next state and the call's outcome, or
`none` when the call panics. -/
structure SocketModel (σ : Type) where
  send : σ → SocketAddr → ChitchatMessage → Option (σ × Except TransportError Unit)
  recv : σ → Option (σ × Except TransportError (SocketAddr × ChitchatMessage))

/-- Process-level entropy (`thread_rng()`), as a stream of u64 draws. -/
def Entropy := ℕ → ℕ

/-- Half of an entropy stream, used by a decorator's own fresh generator. -/
def Entropy.evens (e : Entropy) : Entropy := fun n => e (2 * n)

/-- The other half of an entropy stream, passed to the wrapped transport. -/
def Entropy.odds (e : Entropy) : Entropy := fun n => e (2 * n + 1)

/-- An arbitrary value satisfying the opaque `Transport` contract over
socket-state type `σ`: `open_` binds an address (drawing on process
entropy) and yields a fresh socket state or a `TransportError`, and `sock`
gives the behaviour of the sockets it produces. -/
structure FullTransport (σ : Type) where
  open_ : SocketAddr → Entropy → Except TransportError σ
  sock : SocketModel σ

/-! ## The drop decorator (`TransportWithMessageDrop` / `SocketWithMessageDrop`) -/

/-- Model of `struct SocketWithMessageDrop` (state of one decorated
socket): the configured Bernoulli, the underlying socket state, and the
decorator's own generator. -/
structure SocketWithMessageDrop (σ : Type) where
  drop_probability : Bernoulli
  socket : σ
  rng : SmallRng

/-- Model of `SocketWithMessageDrop::send`: sample `should_drop` from the
Bernoulli with the socket's own generator; on `true` return `Ok(())`
without touching the underlying socket; otherwise delegate to the
underlying `send` and return its outcome verbatim. -/
def SocketWithMessageDrop.send (m : SocketModel σ) (s : SocketWithMessageDrop σ)
    (dst : SocketAddr) (message : ChitchatMessage) :
    Option (SocketWithMessageDrop σ × Except TransportError Unit) :=
  let (should_drop, rng') := s.drop_probability.sample s.rng
  if should_drop then
    some ({ s with rng := rng' }, .ok ())
  else
    (m.send s.socket dst message).map fun p => ({ s with rng := rng', socket := p.1 }, p.2)

/-- Model of `SocketWithMessageDrop::recv`: pure delegation to the
underlying socket's `recv`. -/
def SocketWithMessageDrop.recv (m : SocketModel σ) (s : SocketWithMessageDrop σ) :
    Option (SocketWithMessageDrop σ × Except TransportError (SocketAddr × ChitchatMessage)) :=
  (m.recv s.socket).map fun p => ({ s with socket := p.1 }, p.2)

/-- Model of `struct TransportWithMessageDrop`: the configured Bernoulli
and the wrapped transport. -/
structure TransportWithMessageDrop (σ : Type) where
  drop_probability : Bernoulli
  transport : FullTransport σ

/-- Model of `<TransportWithMessageDrop as Transport>::open`: create a
fresh generator from process entropy, delegate to the wrapped transport's
`open` (propagating its error via `?`), and wrap the returned socket with
the generator and the same Bernoulli. -/
def TransportWithMessageDrop.open_ (t : TransportWithMessageDrop σ)
    (listen_addr : SocketAddr) (e : Entropy) :
    Except TransportError (SocketWithMessageDrop σ) :=
  let rng : SmallRng := ⟨e.evens, 0⟩
  match t.transport.open_ listen_addr e.odds with
  | .error err => .error err
  | .ok socket => .ok { drop_probability := t.drop_probability, socket, rng }

/-- The drop-decorated transport, repackaged as a value of the same opaque
`Transport`/`Socket` contract (the `Box<dyn Transport>` returned by
`drop_message`). -/
def TransportWithMessageDrop.asFull (t : TransportWithMessageDrop σ) :
    FullTransport (SocketWithMessageDrop σ) where
  open_ := fun addr e => t.open_ addr e
  sock :=
    { send := fun s dst msg => SocketWithMessageDrop.send t.transport.sock s dst msg
      recv := fun s => SocketWithMessageDrop.recv t.transport.sock s }

/-! ## The delay decorator (`TransportWithDelay` / `SocketWithDelay`) -/

/-- Model of the delay distribution `D: Distribution<f32> + Send + Sync +
Clone` (the `DelayMillisDist` bound): sampling draws on a generator and
yields a number of seconds (an `f32`, modelled as `ℚ`).  A Lean value of
this type is pure, which models the `Clone` requirement: each socket gets
its own copy of the same distribution. -/
def DistModel := SmallRng → ℚ × SmallRng

/-- Upper bound on the seconds value accepted by
`Duration::from_secs_f32`: the u64 seconds field of `std::time::Duration`. -/
def DURATION_MAX_SECS : ℚ := 18446744073709551616

/-- Model of `std::time::Duration::from_secs_f32`: a duration of `secs`
seconds when `secs` is non-negative, finite and representable; a panic
(`none`) otherwise. -/
def Duration.from_secs_f32 (secs : ℚ) : Option ℚ :=
  if 0 ≤ secs ∧ secs < DURATION_MAX_SECS then some secs else none

/-- A deferred delivery spawned by `SocketWithDelay::send`: the sampled
delay and the destination and message captured by the spawned task. -/
structure PendingSend where
  delay : ℚ
  dst : SocketAddr
  message : ChitchatMessage
deriving DecidableEq

/-- Model of `struct SocketWithDelay` (state of one decorated socket): a
copy of the delay distribution, the shared underlying socket state (the
contents of the `Arc<RwLock<Box<dyn Socket>>>`), the decorator's own
generator, and the deferred tasks spawned so far (the model of
`tokio::task::spawn`). -/
structure SocketWithDelay (σ : Type) where
  delay_secs : DistModel
  socket : σ
  rng : SmallRng
  pending : List PendingSend

/-- Model of `SocketWithDelay::send`: sample a seconds value from the
distribution synchronously with the socket's own generator, convert it to
a `Duration` (a panic, `none`, if it is negative or unrepresentable),
spawn a deferred task carrying the duration, destination and message, and
return `Ok(())` immediately.  The underlying socket is not touched. -/
def SocketWithDelay.send (s : SocketWithDelay σ)
    (dst : SocketAddr) (message : ChitchatMessage) :
    Option (SocketWithDelay σ × Except TransportError Unit) :=
  let (delay_secs, rng') := s.delay_secs s.rng
  match Duration.from_secs_f32 delay_secs with
  | none => none
  | some delay =>
      some ({ s with rng := rng', pending := s.pending ++ [⟨delay, dst, message⟩] }, .ok ())

/-- Body of the spawned task of `SocketWithDelay::send`, after its
`tokio::time::sleep` and once it holds the write lock: invoke the
underlying `send` and discard its outcome (`let _ = …`).  Only the next
underlying state survives; `none` models a panic of the underlying send
(the detached task dies, surfacing nothing). -/
def deferredDeliver (m : SocketModel σ) (under : σ)
    (dst : SocketAddr) (message : ChitchatMessage) : Option σ :=
  (m.send under dst message).map fun p => p.1

/-- Model of `SocketWithDelay::recv`: acquire the write lock on the shared
underlying socket and delegate `recv`, returning its outcome verbatim. -/
def SocketWithDelay.recv (m : SocketModel σ) (s : SocketWithDelay σ) :
    Option (SocketWithDelay σ × Except TransportError (SocketAddr × ChitchatMessage)) :=
  (m.recv s.socket).map fun p => ({ s with socket := p.1 }, p.2)

/-- Model of `struct TransportWithDelay`: the delay distribution and the
wrapped transport. -/
structure TransportWithDelay (σ : Type) where
  delay_secs : DistModel
  transport : FullTransport σ

/-- Model of `<TransportWithDelay as Transport>::open`: create a fresh
generator from process entropy, delegate to the wrapped transport's `open`
(propagating its error via `?`), and wrap the returned socket behind a
fresh `Arc<RwLock<…>>` together with a clone of the distribution and the
generator; no deferred task exists yet. -/
def TransportWithDelay.open_ (t : TransportWithDelay σ)
    (listen_addr : SocketAddr) (e : Entropy) :
    Except TransportError (SocketWithDelay σ) :=
  let rng : SmallRng := ⟨e.evens, 0⟩
  match t.transport.open_ listen_addr e.odds with
  | .error err => .error err
  | .ok socket => .ok { delay_secs := t.delay_secs, socket, rng, pending := [] }

/-- The delay-decorated transport, repackaged as a value of the same opaque
`Transport`/`Socket` contract (the `Box<dyn Transport>` returned by
`delay`). -/
def TransportWithDelay.asFull (t : TransportWithDelay σ) :
    FullTransport (SocketWithDelay σ) where
  open_ := fun addr e => t.open_ addr e
  sock :=
    { send := fun s dst msg => SocketWithDelay.send s dst msg
      recv := fun s => SocketWithDelay.recv t.transport.sock s }

/-! ## The composition facility (`TransportExt`) -/

/-- Model of `TransportExt::drop_message`, available on every transport
value: build the drop decorator around the given transport with
`Bernoulli::new(drop_probability).unwrap()` (`none` models the panic on an
out-of-range probability), returned under the opaque transport contract. -/
def TransportExt.drop_message (t : FullTransport σ) (drop_probability : ℚ) :
    Option (FullTransport (SocketWithMessageDrop σ)) :=
  (Bernoulli.new drop_probability).map fun b =>
    TransportWithMessageDrop.asFull { drop_probability := b, transport := t }

/-- Model of `TransportExt::delay`, available on every transport value:
build the delay decorator around the given transport, returned under the
opaque transport contract. -/
def TransportExt.delay (t : FullTransport σ) (delay_secs : DistModel) :
    FullTransport (SocketWithDelay σ) :=
  TransportWithDelay.asFull { delay_secs := delay_secs, transport := t }

/-! ## Concurrency model of the shared socket under the delay decorator

The socket beneath `SocketWithDelay` lives in an `Arc<RwLock<Box<dyn
Socket>>>` shared by the owning handle (`recv`) and every spawned deferred
delivery.  Each such activity is an agent running a tiny program:
wake up (after its sleep, for a deferred send), `write().await` the lock,
perform its single underlying `send`/`recv`, drop the guard.  `DStep` is
the interleaving small-step semantics of these agents; timing is
abstracted (any sleeping agent may wake at any point). -/

/-- Position of an agent within its program: not yet at the lock
(sleeping / suspended on `write().await`), holding the write lock before
its underlying call, holding it after the call, or finished (guard
dropped). -/
inductive Phase where
  | start
  | locked
  | opDone
  | finished
deriving DecidableEq

/-- What an agent does once it holds the lock: a deferred delivery task
(its captured destination and message) or the owning handle's `recv`. -/
inductive AgentKind where
  | sendTask (dst : SocketAddr) (message : ChitchatMessage)
  | recvTask
deriving DecidableEq

/-- One concurrent activity contending for the shared socket. -/
structure Agent where
  kind : AgentKind
  phase : Phase
deriving DecidableEq

/-- Global state of the shared-socket system: the underlying socket state,
the current holder of the `RwLock` write guard (if any, by agent index),
and the agents. -/
structure DelaySys (σ : Type) where
  under : σ
  lock : Option ℕ
  agents : List Agent

/-- Interleaving semantics of the agents of `DelaySys`.  `fsend` and
`frecv` give the (arbitrary) effect of one underlying `send`/`recv` call
on the underlying socket state.  Acquiring the write lock requires it to
be free; the underlying call requires the caller to hold the lock, and the
guard is released only afterwards. -/
inductive DStep (fsend : σ → SocketAddr → ChitchatMessage → σ) (frecv : σ → σ) :
    DelaySys σ → DelaySys σ → Prop where
  | acquire (s : DelaySys σ) (i : ℕ) (a : Agent)
      (hget : s.agents[i]? = some a) (hph : a.phase = .start) (hfree : s.lock = none) :
      DStep fsend frecv s
        { s with lock := some i, agents := s.agents.set i { a with phase := .locked } }
  | doSend (s : DelaySys σ) (i : ℕ) (a : Agent) (dst : SocketAddr) (message : ChitchatMessage)
      (hget : s.agents[i]? = some a) (hkind : a.kind = .sendTask dst message)
      (hph : a.phase = .locked) (hheld : s.lock = some i) :
      DStep fsend frecv s
        { s with
          under := fsend s.under dst message
          agents := s.agents.set i { a with phase := .opDone } }
  | doRecv (s : DelaySys σ) (i : ℕ) (a : Agent)
      (hget : s.agents[i]? = some a) (hkind : a.kind = .recvTask)
      (hph : a.phase = .locked) (hheld : s.lock = some i) :
      DStep fsend frecv s
        { s with
          under := frecv s.under
          agents := s.agents.set i { a with phase := .opDone } }
  | release (s : DelaySys σ) (i : ℕ) (a : Agent)
      (hget : s.agents[i]? = some a) (hph : a.phase = .opDone) (hheld : s.lock = some i) :
      DStep fsend frecv s
        { s with lock := none, agents := s.agents.set i { a with phase := .finished } }

/-- Agent `i` is inside its critical section: it holds exclusive access to
the shared socket (between lock acquisition and guard drop). -/
def inCritical (s : DelaySys σ) (i : ℕ) : Prop :=
  ∃ a, s.agents[i]? = some a ∧ (a.phase = Phase.locked ∨ a.phase = Phase.opDone)

/-- Lock coherence: every agent inside its critical section is the
registered holder of the write lock. -/
def LockInv (s : DelaySys σ) : Prop :=
  ∀ i, inCritical s i → s.lock = some i

/-- A system in which every agent is still at the beginning and the lock
is free: the state right after `open` returns, before any activity runs. -/
def DelaySys.initial (s : DelaySys σ) : Prop :=
  s.lock = none ∧ ∀ a ∈ s.agents, a.phase = Phase.start

theorem LockInv.step {σ : Type} {fsend : σ → SocketAddr → ChitchatMessage → σ}
    {frecv : σ → σ} {s s' : DelaySys σ}
    (hinv : LockInv s) (hstep : DStep fsend frecv s s') : LockInv s' := by
  cases hstep with
  | acquire i a hget hph hfree =>
      rintro j ⟨a', hget', hph'⟩
      by_cases hij : i = j
      · simpa using congrArg some hij
      · rw [List.getElem?_set_ne hij] at hget'
        have hcrit : inCritical s j := ⟨a', hget', hph'⟩
        have := hinv j hcrit
        rw [hfree] at this
        exact Option.noConfusion this
  | doSend i a dst message hget hkind hph hheld =>
      rintro j ⟨a', hget', hph'⟩
      by_cases hij : i = j
      · show s.lock = some j
        rw [hheld, hij]
      · rw [List.getElem?_set_ne hij] at hget'
        exact hinv j ⟨a', hget', hph'⟩
  | doRecv i a hget hkind hph hheld =>
      rintro j ⟨a', hget', hph'⟩
      by_cases hij : i = j
      · show s.lock = some j
        rw [hheld, hij]
      · rw [List.getElem?_set_ne hij] at hget'
        exact hinv j ⟨a', hget', hph'⟩
  | release i a hget hph hheld =>
      rintro j ⟨a', hget', hph'⟩
      by_cases hij : i = j
      · subst hij
        have hlt : i < s.agents.length := (List.getElem?_eq_some.mp hget).1
        rw [List.getElem?_set_eq_of_lt _ hlt] at hget'
        cases hget'
        rcases hph' with h1 | h1 <;> exact Phase.noConfusion h1
      · rw [List.getElem?_set_ne hij] at hget'
        have := hinv j ⟨a', hget', hph'⟩
        rw [hheld] at this
        cases this
        exact absurd rfl hij

theorem LockInv.reachable {σ : Type} {fsend : σ → SocketAddr → ChitchatMessage → σ}
    {frecv : σ → σ} {s0 s : DelaySys σ}
    (h0 : LockInv s0) (h : Relation.ReflTransGen (DStep fsend frecv) s0 s) : LockInv s := by
  induction h with
  | refl => exact h0
  | tail _ hstep ih => exact ih.step hstep

theorem DelaySys.initial_lockInv {σ : Type} {s : DelaySys σ} (h : s.initial) : LockInv s := by
  rintro i ⟨a, hget, hph⟩
  rcases List.getElem?_eq_some.mp hget with ⟨hlt, he⟩
  have hmem : a ∈ s.agents := he ▸ List.getElem_mem hlt
  have hstart := h.2 a hmem
  rcases hph with h1 | h1 <;> rw [hstart] at h1 <;> exact Phase.noConfusion h1

/-! ## Concrete instances used to witness the theorems -/

/-- An all-zero entropy stream. -/
def zeroStream : ℕ → ℕ := fun _ => 0

/-- A concrete generator over the all-zero stream. -/
def zeroRng : SmallRng := ⟨zeroStream, 0⟩

/-- A concrete distribution that always samples 0 seconds. -/
def constZeroDist : DistModel := fun r => (0, r)

/-- A concrete underlying socket over state `ℕ`: `send` bumps the state
and succeeds, `recv` returns `(3, 4)`. -/
def okSocketModel : SocketModel ℕ where
  send := fun u _ _ => some (u + 1, Except.ok ())
  recv := fun u => some (u, Except.ok (3, 4))

/-- A concrete underlying socket whose `send` always fails with error 5
and whose `recv` always fails with error 6. -/
def errSocketModel : SocketModel ℕ where
  send := fun u _ _ => some (u, Except.error 5)
  recv := fun u => some (u, Except.error 6)

/-- A concrete underlying transport over state `ℕ` whose `open` succeeds,
returning the requested address as the socket state. -/
def okTransport : FullTransport ℕ where
  open_ := fun addr _ => Except.ok addr
  sock := okSocketModel

/-- A concrete underlying transport whose `open` always fails with
error 9. -/
def errTransport : FullTransport ℕ where
  open_ := fun _ _ => Except.error 9
  sock := okSocketModel

/-- A concrete delay-decorated socket over the always-0 distribution. -/
def sampleDelaySocket : SocketWithDelay ℕ :=
  { delay_secs := constZeroDist, socket := 0, rng := zeroRng, pending := [] }

/-- A concrete drop-decorated socket that always drops
(`p_int = ALWAYS_TRUE`, i.e. probability 1). -/
def alwaysDropSocket : SocketWithMessageDrop ℕ :=
  { drop_probability := ⟨ALWAYS_TRUE⟩, socket := 0, rng := zeroRng }

/-- A concrete drop-decorated socket that never drops (`p_int = 0`, i.e.
probability 0). -/
def neverDropSocket : SocketWithMessageDrop ℕ :=
  { drop_probability := ⟨0⟩, socket := 0, rng := zeroRng }

/-- A concrete two-agent shared-socket system: one deferred delivery and
the owning handle's `recv`, neither started. -/
def sampleSys : DelaySys ℕ :=
  { under := 0
    lock := none
    agents := [⟨AgentKind.sendTask 1 2, Phase.start⟩, ⟨AgentKind.recvTask, Phase.start⟩] }

/-! ## Helper lemmas -/

theorem dropSend_eq {σ : Type} (m : SocketModel σ)
    (s : SocketWithMessageDrop σ) (dst : SocketAddr) (message : ChitchatMessage) :
    SocketWithMessageDrop.send m s dst message =
      if (s.drop_probability.sample s.rng).1 then
        some ({ s with rng := (s.drop_probability.sample s.rng).2 }, Except.ok ())
      else
        (m.send s.socket dst message).map fun p =>
          ({ s with rng := (s.drop_probability.sample s.rng).2, socket := p.1 }, p.2) := by
  unfold SocketWithMessageDrop.send
  rcases h : s.drop_probability.sample s.rng with ⟨b, rng2⟩
  cases b <;> simp

theorem delaySend_eq {σ : Type} (s : SocketWithDelay σ)
    (dst : SocketAddr) (message : ChitchatMessage) :
    SocketWithDelay.send s dst message =
      (Duration.from_secs_f32 (s.delay_secs s.rng).1).map fun d =>
        ({ s with rng := (s.delay_secs s.rng).2,
                  pending := s.pending ++ [⟨d, dst, message⟩] },
         Except.ok ()) := by
  unfold SocketWithDelay.send
  rcases h : s.delay_secs s.rng with ⟨sec, rng2⟩
  rcases hd : Duration.from_secs_f32 sec with _ | d <;> simp [hd]

theorem Bernoulli.new_isSome (p : ℚ) :
    (Bernoulli.new p).isSome ↔ 0 ≤ p ∧ p ≤ 1 := by
  unfold Bernoulli.new
  split_ifs with h1 h2
  · exact ⟨fun _ => ⟨h1.1, le_of_lt h1.2⟩, fun _ => rfl⟩
  · subst h2
    exact ⟨fun _ => ⟨by norm_num, le_refl 1⟩, fun _ => rfl⟩
  · constructor
    · intro h
      simp at h
    · intro ⟨ha, hb⟩
      rcases lt_or_eq_of_le hb with hlt | heq
      · exact absurd ⟨ha, hlt⟩ h1
      · exact absurd heq h2

/-! ## Claim theorems -/

/-- C1: whenever the delay decorator's `send` returns, it returns `Ok(())`
immediately after sampling the delay and spawning the deferred-delivery
task, for every destination and message and independently of the
underlying socket (whose state it never touches); and an error produced by
the deferred send after the call has returned is discarded — the detached
task completes carrying only the next underlying-socket state, surfacing
nothing to the caller. -/
theorem delay_send_ok_and_deferred_errors_discarded
    {σ : Type} (s : SocketWithDelay σ) (dst : SocketAddr) (message : ChitchatMessage)
    (s' : SocketWithDelay σ) (r : Except TransportError Unit)
    (h : SocketWithDelay.send s dst message = some (s', r)) :
    r = Except.ok () ∧
    s'.socket = s.socket ∧
    (∃ d, Duration.from_secs_f32 (s.delay_secs s.rng).1 = some d ∧
        s'.pending = s.pending ++ [⟨d, dst, message⟩]) ∧
    (∀ (m : SocketModel σ) (under under' : σ) (err : TransportError),
        m.send under dst message = some (under', Except.error err) →
        deferredDeliver m under dst message = some under') := by
  rw [delaySend_eq] at h
  rcases hd : Duration.from_secs_f32 (s.delay_secs s.rng).1 with _ | d
  · rw [hd] at h
    exact Option.noConfusion h
  · rw [hd] at h
    obtain ⟨h1, h2⟩ := Prod.mk.injEq .. |>.mp (Option.some.inj h)
    refine ⟨h2.symm, ?_, ⟨d, rfl, ?_⟩, ?_⟩
    · rw [← h1]
    · rw [← h1]
    · intro m under under' err hm
      unfold deferredDeliver
      rw [hm]
      rfl

/-- Witness for C1: a concrete call through the always-0 distribution
returns `Ok(())` and leaves the underlying socket untouched. -/
theorem delay_send_ok_and_deferred_errors_discarded_witness :
    SocketWithDelay.send sampleDelaySocket 1 2 =
      some ({ sampleDelaySocket with pending := [⟨0, 1, 2⟩] }, Except.ok ()) ∧
    ({ sampleDelaySocket with pending := [⟨0, 1, 2⟩] } :
        SocketWithDelay ℕ).socket = sampleDelaySocket.socket := by
  have h : SocketWithDelay.send sampleDelaySocket 1 2 =
      some ({ sampleDelaySocket with pending := [⟨0, 1, 2⟩] }, Except.ok ()) := by rfl
  exact ⟨h, (delay_send_ok_and_deferred_errors_discarded _ _ _ _ _ h).2.1⟩

/-- C2: the drop decorator's `send` makes exactly one Bernoulli draw with
the configured probability using the socket's own generator; a `true` draw
returns `Ok(())` without invoking the underlying socket (its state is
unchanged under every possible underlying implementation), and a `false`
draw delegates to the underlying `send` and returns its outcome verbatim,
errors included. -/
theorem drop_send_one_draw_drop_or_delegate
    {σ : Type} (m : SocketModel σ) (s : SocketWithMessageDrop σ)
    (dst : SocketAddr) (message : ChitchatMessage) :
    ((s.drop_probability.sample s.rng).1 = true →
        SocketWithMessageDrop.send m s dst message =
          some ({ s with rng := (s.drop_probability.sample s.rng).2 }, Except.ok ())) ∧
    ((s.drop_probability.sample s.rng).1 = false →
        SocketWithMessageDrop.send m s dst message =
          (m.send s.socket dst message).map fun p =>
            ({ s with rng := (s.drop_probability.sample s.rng).2, socket := p.1 }, p.2)) := by
  rw [dropSend_eq]
  constructor
  · intro hb
    simp [hb]
  · intro hb
    simp [hb]

/-- Witness for C2: with the always-drop Bernoulli the draw is `true` and
the call succeeds with the underlying socket untouched. -/
theorem drop_send_one_draw_drop_or_delegate_witness :
    (alwaysDropSocket.drop_probability.sample alwaysDropSocket.rng).1 = true ∧
    SocketWithMessageDrop.send okSocketModel alwaysDropSocket 1 2 =
      some (alwaysDropSocket, Except.ok ()) := by
  have hb : (alwaysDropSocket.drop_probability.sample alwaysDropSocket.rng).1 = true := rfl
  exact ⟨hb, (drop_send_one_draw_drop_or_delegate okSocketModel alwaysDropSocket 1 2).1 hb⟩

/-- C3: in the shared-socket system of the delay decorator, every
reachable state satisfies lock coherence, at most one activity (deferred
delivery or `recv`) is ever inside its critical section, and any step that
mutates the underlying socket is taken by the current lock holder while it
is in its critical section, with the lock still held afterwards — so no
two concurrent operations on the underlying socket can interleave within
one call. -/
theorem delay_shared_socket_exclusive_access
    {σ : Type} (fsend : σ → SocketAddr → ChitchatMessage → σ) (frecv : σ → σ)
    {s0 s : DelaySys σ} (hinit : s0.initial)
    (hreach : Relation.ReflTransGen (DStep fsend frecv) s0 s) :
    LockInv s ∧
    (∀ i j, inCritical s i → inCritical s j → i = j) ∧
    (∀ s', DStep fsend frecv s s' → s'.under ≠ s.under →
        ∃ i, s.lock = some i ∧ inCritical s i ∧ s'.lock = some i) := by
  have hinv : LockInv s := LockInv.reachable (DelaySys.initial_lockInv hinit) hreach
  refine ⟨hinv, ?_, ?_⟩
  · intro i j hi hj
    have h1 := hinv i hi
    have h2 := hinv j hj
    rw [h1] at h2
    exact Option.some.inj h2
  · intro s' hstep hne
    cases hstep with
    | acquire i a hget hph hfree => exact absurd rfl hne
    | doSend i a dst message hget hkind hph hheld =>
        exact ⟨i, hheld, ⟨a, hget, Or.inl hph⟩, hheld⟩
    | doRecv i a hget hkind hph hheld =>
        exact ⟨i, hheld, ⟨a, hget, Or.inl hph⟩, hheld⟩
    | release i a hget hph hheld => exact absurd rfl hne

/-- Witness for C3: the two-agent system (one deferred delivery, one
`recv`) in its initial state satisfies the mutual-exclusion invariant. -/
theorem delay_shared_socket_exclusive_access_witness :
    DelaySys.initial sampleSys ∧ LockInv sampleSys := by
  have hinit : DelaySys.initial sampleSys := by
    refine ⟨rfl, ?_⟩
    intro a ha
    fin_cases ha <;> rfl
  exact ⟨hinit,
    (delay_shared_socket_exclusive_access (fun u _ _ => u + 1)
      (fun u => u) hinit Relation.ReflTransGen.refl).1⟩

/-- C4: both decorators' `open` delegates to the wrapped transport's
`open`: it fails exactly when the wrapped `open` fails, with the very same
error and no decorated socket; on success the returned socket is wrapped
with a fresh per-socket generator and the decorator's policy — the same
Bernoulli for the drop decorator, a copy of the delay distribution for the
delay decorator — and `open` introduces no failure of its own. -/
theorem decorator_open_delegates
    {σ : Type} (td : TransportWithMessageDrop σ) (tl : TransportWithDelay σ)
    (addr : SocketAddr) (e : Entropy) :
    (∀ err, td.open_ addr e = Except.error err ↔
        td.transport.open_ addr e.odds = Except.error err) ∧
    (∀ u, td.transport.open_ addr e.odds = Except.ok u →
        td.open_ addr e = Except.ok
          { drop_probability := td.drop_probability, socket := u, rng := ⟨e.evens, 0⟩ }) ∧
    (∀ err, tl.open_ addr e = Except.error err ↔
        tl.transport.open_ addr e.odds = Except.error err) ∧
    (∀ u, tl.transport.open_ addr e.odds = Except.ok u →
        tl.open_ addr e = Except.ok
          { delay_secs := tl.delay_secs, socket := u, rng := ⟨e.evens, 0⟩,
            pending := [] }) := by
  unfold TransportWithMessageDrop.open_ TransportWithDelay.open_
  rcases h1 : td.transport.open_ addr e.odds with err1 | u1 <;>
    rcases h2 : tl.transport.open_ addr e.odds with err2 | u2 <;>
      refine ⟨?_, ?_, ?_, ?_⟩ <;> simp

/-- Witness for C4: opening through the drop decorator over a transport
whose `open` succeeds yields the decorated socket with a fresh generator. -/
theorem decorator_open_delegates_witness :
    okTransport.open_ 5 (Entropy.odds zeroStream) = Except.ok 5 ∧
    TransportWithMessageDrop.open_ ⟨⟨0⟩, okTransport⟩ 5 zeroStream =
      Except.ok { drop_probability := ⟨0⟩, socket := 5,
                  rng := ⟨Entropy.evens zeroStream, 0⟩ } := by
  have h : okTransport.open_ 5 (Entropy.odds zeroStream) = Except.ok 5 := rfl
  exact ⟨h,
    (decorator_open_delegates ⟨⟨0⟩, okTransport⟩ ⟨constZeroDist, okTransport⟩
      5 zeroStream).2.1 5 h⟩

/-- C5: `recv` is pure delegation in both decorators: the underlying
`recv`'s `(source, message)` result or error is returned unchanged, the
drop decorator never drops an inbound message (its Bernoulli and generator
are not consulted), and the delay decorator adds no policy to reception:
its distribution, generator and pending tasks are untouched. -/
theorem decorator_recv_pure_delegation
    {σ : Type} (m : SocketModel σ) (sd : SocketWithMessageDrop σ) (sl : SocketWithDelay σ) :
    (∀ u r, m.recv sd.socket = some (u, r) →
        SocketWithMessageDrop.recv m sd =
          some ({ drop_probability := sd.drop_probability, socket := u,
                  rng := sd.rng }, r)) ∧
    (m.recv sd.socket = none → SocketWithMessageDrop.recv m sd = none) ∧
    (∀ u r, m.recv sl.socket = some (u, r) →
        SocketWithDelay.recv m sl =
          some ({ delay_secs := sl.delay_secs, socket := u, rng := sl.rng,
                  pending := sl.pending }, r)) ∧
    (m.recv sl.socket = none → SocketWithDelay.recv m sl = none) := by
  unfold SocketWithMessageDrop.recv SocketWithDelay.recv
  refine ⟨?_, ?_, ?_, ?_⟩
  · intro u r h
    rw [h]
    rfl
  · intro h
    rw [h]
    rfl
  · intro u r h
    rw [h]
    rfl
  · intro h
    rw [h]
    rfl

/-- Witness for C5: a concrete inbound message passes through the drop
decorator unchanged. -/
theorem decorator_recv_pure_delegation_witness :
    okSocketModel.recv neverDropSocket.socket = some (0, Except.ok (3, 4)) ∧
    SocketWithMessageDrop.recv okSocketModel neverDropSocket =
      some (neverDropSocket, Except.ok (3, 4)) := by
  have h : okSocketModel.recv neverDropSocket.socket = some (0, Except.ok (3, 4)) := rfl
  exact ⟨h,
    (decorator_recv_pure_delegation okSocketModel neverDropSocket
      sampleDelaySocket).1 0 (Except.ok (3, 4)) h⟩

theorem Bernoulli.new_zero : Bernoulli.new 0 = some ⟨0⟩ := by
  unfold Bernoulli.new
  rw [if_pos (by norm_num)]
  rw [zero_mul, Rat.floor_def']
  norm_num

theorem Bernoulli.new_one : Bernoulli.new 1 = some ⟨ALWAYS_TRUE⟩ := by
  unfold Bernoulli.new
  rw [if_neg (by norm_num), if_pos rfl]

theorem Bernoulli.sample_zero (rng : SmallRng) :
    Bernoulli.sample ⟨0⟩ rng = (false, rng.next.2) := by
  unfold Bernoulli.sample
  rw [if_neg (by norm_num [ALWAYS_TRUE])]
  rcases hn : rng.next with ⟨v, rng2⟩
  simp

theorem Bernoulli.sample_alwaysTrue (rng : SmallRng) :
    Bernoulli.sample ⟨ALWAYS_TRUE⟩ rng = (true, rng) := by
  unfold Bernoulli.sample
  rw [if_pos rfl]

theorem SocketWithMessageDrop.send_rng {σ : Type} (m : SocketModel σ)
    (s : SocketWithMessageDrop σ) (dst : SocketAddr) (message : ChitchatMessage)
    (out : SocketWithMessageDrop σ × Except TransportError Unit)
    (h : SocketWithMessageDrop.send m s dst message = some out) :
    out.1.rng = (s.drop_probability.sample s.rng).2 := by
  rw [dropSend_eq] at h
  by_cases hb : (s.drop_probability.sample s.rng).1
  · rw [if_pos hb] at h
    cases Option.some.inj h
    rfl
  · rw [if_neg hb] at h
    rcases hm : m.send s.socket dst message with _ | pr
    · rw [hm] at h
      exact Option.noConfusion h
    · rw [hm] at h
      cases Option.some.inj h
      rfl

/-- C6: `drop_message` rejects a probability outside `[0, 1]` at
construction time and succeeds for every probability in `[0, 1]`;
per-message sampling always yields a boolean decision (it has no error
outcome), and every error a decorated `send` returns originates verbatim
from the underlying socket, never from the decorator's own logic. -/
theorem drop_message_construction_and_no_own_errors
    {σ : Type} (t : FullTransport σ) (p : ℚ) :
    ((TransportExt.drop_message t p).isSome ↔ 0 ≤ p ∧ p ≤ 1) ∧
    (∀ (b : Bernoulli) (rng : SmallRng),
        ∃ decision rng', b.sample rng = (decision, rng')) ∧
    (∀ (m : SocketModel σ) (s : SocketWithMessageDrop σ) dst message out err,
        SocketWithMessageDrop.send m s dst message = some out →
        out.2 = Except.error err →
        m.send s.socket dst message = some (out.1.socket, Except.error err)) := by
  refine ⟨?_, ?_, ?_⟩
  · unfold TransportExt.drop_message
    rw [Option.isSome_map']
    exact Bernoulli.new_isSome p
  · intro b rng
    exact ⟨(b.sample rng).1, (b.sample rng).2, rfl⟩
  · intro m s dst message out err hsend herr
    rw [dropSend_eq] at hsend
    by_cases hb : (s.drop_probability.sample s.rng).1
    · rw [if_pos hb] at hsend
      cases Option.some.inj hsend
      exact Except.noConfusion herr
    · rw [if_neg hb] at hsend
      rcases hm : m.send s.socket dst message with _ | pr
      · rw [hm] at hsend
        exact Option.noConfusion hsend
      · rw [hm] at hsend
        cases Option.some.inj hsend
        rw [← herr]

/-- Witness for C6: a concrete underlying `send` error is returned
verbatim through the never-drop decorator. -/
theorem drop_message_construction_and_no_own_errors_witness :
    SocketWithMessageDrop.send errSocketModel neverDropSocket 1 2 =
      some ({ drop_probability := ⟨0⟩, socket := 0, rng := ⟨zeroStream, 1⟩ },
            Except.error 5) ∧
    errSocketModel.send neverDropSocket.socket 1 2 = some (0, Except.error 5) := by
  have h : SocketWithMessageDrop.send errSocketModel neverDropSocket 1 2 =
      some ({ drop_probability := ⟨0⟩, socket := 0, rng := ⟨zeroStream, 1⟩ },
            Except.error 5) := by rfl
  exact ⟨h,
    (drop_message_construction_and_no_own_errors okTransport 0).2.2
      errSocketModel neverDropSocket 1 2 _ 5 h rfl⟩

/-- C7: with drop probability 0 every `send` delegates to the underlying
socket (this layer never drops), and with drop probability 1 every `send`
returns success with the decorated socket unchanged — the underlying
socket is never invoked and no message is ever delivered. -/
theorem drop_probability_zero_and_one
    {σ : Type} (m : SocketModel σ) (s : SocketWithMessageDrop σ)
    (dst : SocketAddr) (message : ChitchatMessage) :
    (Bernoulli.new 0 = some s.drop_probability →
        SocketWithMessageDrop.send m s dst message =
          (m.send s.socket dst message).map fun p =>
            ({ s with rng := s.rng.next.2, socket := p.1 }, p.2)) ∧
    (Bernoulli.new 1 = some s.drop_probability →
        SocketWithMessageDrop.send m s dst message = some (s, Except.ok ())) := by
  constructor
  · intro h0
    rw [Bernoulli.new_zero] at h0
    have hb : s.drop_probability = ⟨0⟩ := (Option.some.inj h0).symm
    rw [dropSend_eq, hb, Bernoulli.sample_zero]
    simp
  · intro h1
    rw [Bernoulli.new_one] at h1
    have hb : s.drop_probability = ⟨ALWAYS_TRUE⟩ := (Option.some.inj h1).symm
    rw [dropSend_eq, hb, Bernoulli.sample_alwaysTrue]
    simp
    rw [← hb]

/-- Witness for C7: the probability-1 socket silently accepts a message,
and the probability-0 socket delegates it to the underlying socket. -/
theorem drop_probability_zero_and_one_witness :
    Bernoulli.new 1 = some alwaysDropSocket.drop_probability ∧
    SocketWithMessageDrop.send okSocketModel alwaysDropSocket 1 2 =
      some (alwaysDropSocket, Except.ok ()) ∧
    Bernoulli.new 0 = some neverDropSocket.drop_probability ∧
    SocketWithMessageDrop.send okSocketModel neverDropSocket 1 2 =
      (okSocketModel.send neverDropSocket.socket 1 2).map fun p =>
        ({ neverDropSocket with rng := neverDropSocket.rng.next.2, socket := p.1 }, p.2) := by
  have h1 : Bernoulli.new 1 = some alwaysDropSocket.drop_probability := Bernoulli.new_one
  have h0 : Bernoulli.new 0 = some neverDropSocket.drop_probability := Bernoulli.new_zero
  exact ⟨h1, (drop_probability_zero_and_one okSocketModel alwaysDropSocket 1 2).2 h1,
    h0, (drop_probability_zero_and_one okSocketModel neverDropSocket 1 2).1 h0⟩

/-- C8: `SocketWithDelay::send` samples exactly one seconds value from the
distribution, synchronously, with the socket's own generator (which
advances to exactly the generator state the sample returns), and the
deferred delivery is scheduled to wait exactly that many seconds; when the
sampled value is non-negative and representable as a `Duration`, the
conversion succeeds (no panic). -/
theorem delay_send_single_sample_safe_conversion
    {σ : Type} (s : SocketWithDelay σ) (dst : SocketAddr) (message : ChitchatMessage)
    (sec : ℚ) (rng' : SmallRng)
    (hsample : s.delay_secs s.rng = (sec, rng'))
    (hnonneg : 0 ≤ sec) (hrep : sec < DURATION_MAX_SECS) :
    Duration.from_secs_f32 sec = some sec ∧
    SocketWithDelay.send s dst message =
      some ({ s with rng := rng', pending := s.pending ++ [⟨sec, dst, message⟩] },
            Except.ok ()) := by
  have hd : Duration.from_secs_f32 sec = some sec := by
    unfold Duration.from_secs_f32
    rw [if_pos ⟨hnonneg, hrep⟩]
  refine ⟨hd, ?_⟩
  rw [delaySend_eq, hsample]
  simp [hd]

/-- Witness for C8: the always-0 distribution samples 0 seconds, which
converts to a 0-second delay without panicking. -/
theorem delay_send_single_sample_safe_conversion_witness :
    sampleDelaySocket.delay_secs sampleDelaySocket.rng = (0, zeroRng) ∧
    (0 : ℚ) ≤ 0 ∧ (0 : ℚ) < DURATION_MAX_SECS ∧
    SocketWithDelay.send sampleDelaySocket 1 2 =
      some ({ sampleDelaySocket with rng := zeroRng, pending := [⟨0, 1, 2⟩] },
            Except.ok ()) := by
  have hs : sampleDelaySocket.delay_secs sampleDelaySocket.rng = (0, zeroRng) := rfl
  have h0 : (0 : ℚ) ≤ 0 := le_refl 0
  have h1 : (0 : ℚ) < DURATION_MAX_SECS := by norm_num [DURATION_MAX_SECS]
  exact ⟨hs, h0, h1,
    (delay_send_single_sample_safe_conversion sampleDelaySocket 1 2 0 zeroRng
      hs h0 h1).2⟩

/-- C9: the composition facility is available on every transport value:
`drop_message p` yields the drop decorator wrapping the given transport
and `delay d` yields the delay decorator wrapping it, both repackaged
under the same opaque transport contract, and the two chain in either
order — drop-over-delay and delay-over-drop are both well-formed, with
neither order privileged by the facility. -/
theorem transport_ext_composes_in_either_order
    {σ : Type} (t : FullTransport σ) (p : ℚ) (d : DistModel)
    (h0 : 0 ≤ p) (h1 : p ≤ 1) :
    (∃ b, Bernoulli.new p = some b ∧
        TransportExt.drop_message t p =
          some (TransportWithMessageDrop.asFull
            { drop_probability := b, transport := t })) ∧
    TransportExt.delay t d =
      TransportWithDelay.asFull { delay_secs := d, transport := t } ∧
    (∃ b, Bernoulli.new p = some b ∧
        TransportExt.drop_message (TransportExt.delay t d) p =
          some (TransportWithMessageDrop.asFull
            { drop_probability := b, transport := TransportExt.delay t d })) ∧
    (∀ td : FullTransport (SocketWithMessageDrop σ),
        TransportExt.drop_message t p = some td →
        TransportExt.delay td d =
          TransportWithDelay.asFull { delay_secs := d, transport := td }) := by
  have hsome : (Bernoulli.new p).isSome = true := (Bernoulli.new_isSome p).mpr ⟨h0, h1⟩
  rcases hb : Bernoulli.new p with _ | b
  · rw [hb] at hsome
    exact Bool.noConfusion hsome
  · refine ⟨⟨b, rfl, ?_⟩, rfl, ⟨b, rfl, ?_⟩, fun td _ => rfl⟩
    · unfold TransportExt.drop_message
      rw [hb]
      rfl
    · unfold TransportExt.drop_message
      rw [hb]
      rfl

/-- Witness for C9 at probability 0 and the always-0 distribution over a
concrete transport. -/
theorem transport_ext_composes_in_either_order_witness :
    (0 : ℚ) ≤ 0 ∧ (0 : ℚ) ≤ 1 ∧
    TransportExt.delay okTransport constZeroDist =
      TransportWithDelay.asFull
        { delay_secs := constZeroDist, transport := okTransport } := by
  have h0 : (0 : ℚ) ≤ 0 := le_refl 0
  have h1 : (0 : ℚ) ≤ 1 := by norm_num
  exact ⟨h0, h1,
    (transport_ext_composes_in_either_order okTransport 0 constZeroDist h0 h1).2.1⟩

/-- C10: every returning call of the drop decorator's `send` advances the
socket's generator to exactly the state left by one Bernoulli draw —
including calls whose delegated send returns an error, and identically for
any two calls from the same state regardless of destination, message or
underlying behaviour — the drop-or-pass decision is the draw's boolean,
which depends only on the generator state and the configured probability;
and when the message passes, the underlying socket receives exactly the
caller's destination and message and its outcome is returned verbatim. -/
theorem drop_send_rng_advance_uniform_and_forwarding_exact
    {σ : Type} (m m2 : SocketModel σ) (s : SocketWithMessageDrop σ)
    (dst dst2 : SocketAddr) (message message2 : ChitchatMessage)
    (out out2 : SocketWithMessageDrop σ × Except TransportError Unit)
    (h : SocketWithMessageDrop.send m s dst message = some out)
    (h2 : SocketWithMessageDrop.send m2 s dst2 message2 = some out2) :
    out.1.rng = (s.drop_probability.sample s.rng).2 ∧
    out2.1.rng = out.1.rng ∧
    ((s.drop_probability.sample s.rng).1 = true →
        out.1.socket = s.socket ∧ out.2 = Except.ok ()) ∧
    ((s.drop_probability.sample s.rng).1 = false →
        m.send s.socket dst message = some (out.1.socket, out.2)) := by
  have ha := SocketWithMessageDrop.send_rng m s dst message out h
  have ha2 := SocketWithMessageDrop.send_rng m2 s dst2 message2 out2 h2
  refine ⟨ha, by rw [ha, ha2], ?_, ?_⟩
  · intro hb
    rw [dropSend_eq, if_pos hb] at h
    cases Option.some.inj h
    exact ⟨rfl, rfl⟩
  · intro hb
    rw [dropSend_eq] at h
    rw [hb] at h
    simp only [Bool.false_eq_true, if_false] at h
    rcases hm : m.send s.socket dst message with _ | pr
    · rw [hm] at h
      exact Option.noConfusion h
    · rw [hm] at h
      cases Option.some.inj h
      rfl

/-- Witness for C10: two concrete calls from the same socket state, one
delivered successfully and one failed by the underlying socket, advance
the generator identically. -/
theorem drop_send_rng_advance_uniform_and_forwarding_exact_witness :
    SocketWithMessageDrop.send okSocketModel neverDropSocket 1 2 =
      some ({ drop_probability := ⟨0⟩, socket := 1, rng := ⟨zeroStream, 1⟩ },
            Except.ok ()) ∧
    SocketWithMessageDrop.send errSocketModel neverDropSocket 3 4 =
      some ({ drop_probability := ⟨0⟩, socket := 0, rng := ⟨zeroStream, 1⟩ },
            Except.error 5) ∧
    ({ drop_probability := ⟨0⟩, socket := 0, rng := ⟨zeroStream, 1⟩ } :
        SocketWithMessageDrop ℕ).rng =
      ({ drop_probability := ⟨0⟩, socket := 1, rng := ⟨zeroStream, 1⟩ } :
        SocketWithMessageDrop ℕ).rng := by
  have h : SocketWithMessageDrop.send okSocketModel neverDropSocket 1 2 =
      some ({ drop_probability := ⟨0⟩, socket := 1, rng := ⟨zeroStream, 1⟩ },
            Except.ok ()) := by rfl
  have h2 : SocketWithMessageDrop.send errSocketModel neverDropSocket 3 4 =
      some ({ drop_probability := ⟨0⟩, socket := 0, rng := ⟨zeroStream, 1⟩ },
            Except.error 5) := by rfl
  exact ⟨h, h2,
    (drop_send_rng_advance_uniform_and_forwarding_exact okSocketModel errSocketModel
      neverDropSocket 1 3 2 4 _ _ h h2).2.1⟩
